import Mathlib

/-!
# Shallow embedding of the GuruFocus ISIN matcher

This file embeds the decision logic of `src/gurufocus_isin_matcher.js` and of
the variant script found in `src/unnamed/part_000` (the `GuruFocusISINMatcher`
class appearing there), and proves the behavioural properties of its
text-extraction and record-matching pipeline.

Modelling choices:
* page text is a list of characters (`Str`);
* the JS regular expressions of `extractISINFromPage` are embedded as explicit
  leftmost-match scanners over character lists, with the exact character
  classes of the patterns (the `/i` flag of tier 1 is modelled by
  case-insensitive character classes and comparisons, which is what the flag
  does to an ASCII pattern);
* every browser interaction is an oracle fixed by an environment value:
  the search navigation either yields the scraped candidate list or fails,
  and extraction per URL is an arbitrary function, so the pure record/batch
  logic can be proved for every possible behaviour of the external site;
* the JS file writes of the matches CSV are modelled by returning the file
  content (`saveMatchesCSV`) and, in the batch loop, the ordered trace of
  contents written.
-/

/-- Page text, URLs, identifiers: all JS strings are modelled as `List Char`. -/
abbrev Str := List Char

/-! ## Character classes of the JS regular expressions -/

/-- The regex character range `A`-`Z` (case-sensitive): code points 65..90. -/
def isUpperAZ (c : Char) : Bool :=
  decide (65 ≤ c.toNat) && decide (c.toNat ≤ 90)

/-- The regex character range `a`-`z`: code points 97..122. -/
def isLowerAZ (c : Char) : Bool :=
  decide (97 ≤ c.toNat) && decide (c.toNat ≤ 122)

/-- The regex character range `0`-`9`: code points 48..57. -/
def isDigit09 (c : Char) : Bool :=
  decide (48 ≤ c.toNat) && decide (c.toNat ≤ 57)

/-- The letter range of the code pattern under the `/i` flag: the flag
case-folds the pattern's character classes, so the range matches letters of
either case. -/
def isLetterCI (c : Char) : Bool := isUpperAZ c || isLowerAZ c

/-- The letter-or-digit range of the code pattern under the `/i` flag. -/
def isAlnumCI (c : Char) : Bool := isLetterCI c || isDigit09 c

/-- The letter-or-digit range of the code pattern, case-sensitive
(tiers 2 and 3 have no `/i` flag). -/
def isAlnumCS (c : Char) : Bool := isUpperAZ c || isDigit09 c

/-- The regex class `\s`, restricted to its ASCII members
(space, tab, line feed, vertical tab, form feed, carriage return). -/
def isJsSpace (c : Char) : Bool :=
  decide (c.toNat = 32) || decide (c.toNat = 9) || decide (c.toNat = 10) ||
  decide (c.toNat = 13) || decide (c.toNat = 11) || decide (c.toNat = 12)

/-- ASCII simple case folding on code points (upper-case letters fold to
lower case), as performed by the `/i` flag. -/
def foldNat (n : Nat) : Nat := if 65 ≤ n ∧ n ≤ 90 then n + 32 else n

/-- Case-insensitive character comparison (the `/i` flag's canonicalisation). -/
def eqCI (a b : Char) : Bool := foldNat a.toNat == foldNat b.toNat

/-! ## The three extraction tiers of `extractISINFromPage` -/

/-- Match the capture group `([A-Z]{2}[A-Z0-9]{10})` anchored at the start of
`s`, with the two character classes given by `letter` and `alnum`; returns the
twelve captured characters.  Both `\s*` runs before a code are maximal-munch,
and nothing in the pattern follows the group, so no backtracking arises. -/
def matchCodeAt (letter alnum : Char → Bool) (s : Str) : Option Str :=
  let code := s.take 12
  if code.length = 12 ∧ (code.take 2).all letter = true ∧
      (code.drop 2).all alnum = true then
    some code
  else none

/-- One attempt of tier 1's regex `ISIN\s*[:]\s*([A-Z]{2}[A-Z0-9]{10})` with
the `/i` flag, anchored at the start of `s`
(`src/gurufocus_isin_matcher.js:107`, `src/unnamed/part_000:275`).
`\s*` is maximal munch: a colon and the code's first character are never
whitespace, so greedy matching is exact. -/
def tier1At (s : Str) : Option Str :=
  match s with
  | c1 :: c2 :: c3 :: c4 :: rest =>
    if eqCI c1 'I' = true ∧ eqCI c2 'S' = true ∧ eqCI c3 'I' = true ∧
        eqCI c4 'N' = true then
      match rest.dropWhile isJsSpace with
      | ':' :: rest2 => matchCodeAt isLetterCI isAlnumCI (rest2.dropWhile isJsSpace)
      | _ => none
    else none
  | _ => none

/-- Tier 1 (method 1): the leftmost match of the labelled pattern, as
`String.prototype.match` tries each start position from left to right. -/
def tier1Scan : Str → Option Str
  | [] => none
  | c :: rest =>
    match tier1At (c :: rest) with
    | some v => some v
    | none => tier1Scan rest

/-- Leftmost match of the bare pattern `([A-Z]{2}[A-Z0-9]{10})` without the
`/i` flag; tier 2 takes element `[0]` of the global match list, which is the
leftmost match (`src/gurufocus_isin_matcher.js:119`), and tier 3 applies the
same pattern per element text (`src/gurufocus_isin_matcher.js:135`). -/
def bareScan : Str → Option Str
  | [] => none
  | c :: rest =>
    match matchCodeAt isUpperAZ isAlnumCS (c :: rest) with
    | some v => some v
    | none => bareScan rest

/-- Tier 3 (method 3): enumerate the `td, div, span, p` element texts in
document order and return the first bare-pattern match
(`src/gurufocus_isin_matcher.js:130-141`). -/
def tier3Scan : List Str → Option Str
  | [] => none
  | t :: ts =>
    match bareScan t with
    | some v => some v
    | none => tier3Scan ts

/-- A stock page as the extractor sees it: the `document.body.innerText`
content used by tiers 1 and 2, and the `td, div, span, p` element texts, in
document order, used by tier 3. -/
structure Page where
  bodyText : Str
  elementTexts : List Str

/-- JS truthiness of a string-or-null value: `null` and the empty string are
falsy; this is the test `if (!isin)` guarding tiers 2 and 3. -/
def strFalsy : Option Str → Bool
  | none => true
  | some s => s.isEmpty

/-- `extractISINFromPage` (`src/gurufocus_isin_matcher.js:94-153`): run
tier 1; if its result is falsy run tier 2; if that result is falsy run
tier 3.  The surrounding navigation try/catch returns `null` on failure,
which the record logic treats like the `none` result. -/
def extractISINFromPage (p : Page) : Option Str :=
  let isin1 := tier1Scan p.bodyText
  let isin2 := if strFalsy isin1 then bareScan p.bodyText else isin1
  let isin3 := if strFalsy isin2 then tier3Scan p.elementTexts else isin2
  isin3

/-! ## Data model of the record-matching pipeline -/

/-- The per-record outcome classification.  `not_found` is the placeholder the
result object is created with (`status: 'not_found'`,
`src/gurufocus_isin_matcher.js:166`); the other four are the terminal values. -/
inductive Status
  | not_found
  | matched
  | no_match
  | no_results
  | error
deriving DecidableEq

/-- A search-result hyperlink as scraped by `searchCompany`: its `href` and
trimmed text content. -/
structure Candidate where
  url : Str
  text : Str
deriving DecidableEq

/-- One row of the input CSV after parsing: company name and expected ISIN
(`readCSV`, `src/gurufocus_isin_matcher.js:17-34`). -/
structure InputRecord where
  companyName : Str
  isinCode : Str
deriving DecidableEq

/-- The result object built by `processCompany`
(`src/gurufocus_isin_matcher.js:161-167`); `error` is the extra field the
catch handler adds (`result.error = error.message`, line 207). -/
structure MatchRecord where
  companyName : Str
  expectedISIN : Str
  foundISIN : Option Str
  matchingURL : Option Str
  status : Status
  error : Option Str := none
deriving DecidableEq

/-- Outcome of one browser navigation: the value produced by the page, or a
navigation/timeout failure with its message. -/
inductive NavResult (α : Type)
  | ok (a : α)
  | navError (msg : Str)

/-- `searchCompany` (`src/gurufocus_isin_matcher.js:66-89`): the try block
returns the scraped candidate list; the catch logs the failure and returns
the empty list, so a navigation failure is indistinguishable from an empty
search-result page to the caller. -/
def searchCompany (nav : NavResult (List Candidate)) : List Candidate :=
  match nav with
  | .ok links => links
  | .navError _ => []

/-- State of `processCompany`'s candidate loop when it finishes: the last
values assigned to `result.foundISIN` / `result.matchingURL` / `result.status`,
plus the trace of URLs passed to `extractISINFromPage`, in order. -/
structure LoopResult where
  foundISIN : Option Str
  matchingURL : Option Str
  status : Status
  visited : List Str
deriving DecidableEq

/-- The candidate loop of `processCompany`
(`src/gurufocus_isin_matcher.js:180-201`): for each link in order, run
extraction; a truthy extraction is stored in `result.foundISIN`; if it equals
the expected code the loop stops with `matched` and the link's URL; otherwise
the loop continues; after exhaustion the status is `no_match`.  The `found`
argument is the current value of `result.foundISIN`. -/
def checkLinks (expected : Str) (extract : Str → Option Str) :
    List Candidate → Option Str → LoopResult
  | [], found => ⟨found, none, Status.no_match, []⟩
  | link :: rest, found =>
    match extract link.url with
    | some f =>
      if f = [] then
        let r := checkLinks expected extract rest found
        { r with visited := link.url :: r.visited }
      else if f = expected then
        ⟨some f, some link.url, Status.matched, [link.url]⟩
      else
        let r := checkLinks expected extract rest (some f)
        { r with visited := link.url :: r.visited }
    | none =>
      let r := checkLinks expected extract rest found
      { r with visited := link.url :: r.visited }

/-- The try-block body of `processCompany`
(`src/gurufocus_isin_matcher.js:158-202`): search, classify an empty
candidate list as `no_results`, otherwise run the candidate loop.
`extract` gives the result of `extractISINFromPage` for each URL (that
function catches its own failures and returns `null`, hence a total
function into `Option`). -/
def processCompany (company : InputRecord) (nav : NavResult (List Candidate))
    (extract : Str → Option Str) : MatchRecord :=
  let stockLinks := searchCompany nav
  if stockLinks.length = 0 then
    { companyName := company.companyName, expectedISIN := company.isinCode,
      foundISIN := none, matchingURL := none, status := Status.no_results }
  else
    let r := checkLinks company.isinCode extract stockLinks none
    { companyName := company.companyName, expectedISIN := company.isinCode,
      foundISIN := r.foundISIN, matchingURL := r.matchingURL, status := r.status }

/-- How one record's processing unfolds: either the try block runs normally
(with the search navigation's outcome), or some step of it throws and the
exception reaches `processCompany`'s catch handler with the given message. -/
inductive RecordOutcome
  | normal (nav : NavResult (List Candidate))
  | thrown (msg : Str)

/-- Environment fixing every external interaction of one record: the record's
processing outcome and the extraction oracle. -/
structure RecordEnv where
  outcome : RecordOutcome
  extract : Str → Option Str

/-- `processCompany` including its catch handler
(`src/gurufocus_isin_matcher.js:204-208`): an uncaught failure inside the try
block yields `status error` with the failure's message stored on the record. -/
def processCompanyFull (company : InputRecord) (env : RecordEnv) : MatchRecord :=
  match env.outcome with
  | .normal nav => processCompany company nav env.extract
  | .thrown msg =>
    { companyName := company.companyName, expectedISIN := company.isinCode,
      foundISIN := none, matchingURL := none, status := Status.error,
      error := some msg }

/-- The candidate list a record's processing iterates over under `env`. -/
def envLinks (env : RecordEnv) : List Candidate :=
  match env.outcome with
  | .normal nav => searchCompany nav
  | .thrown _ => []

/-! ## The matches CSV -/

/-- JS template-string rendering of a string-or-null value
(a `null` field prints as the text `null`). -/
def jsShowOpt : Option Str → Str
  | some s => s
  | none => "null".data

/-- One data row of the matches CSV, the template
`${r.companyName},${r.expectedISIN},${r.matchingURL}`
(`src/gurufocus_isin_matcher.js:256`, `src/unnamed/part_000:448`):
the three values are joined with commas verbatim, with no escaping. -/
def matchRow (r : MatchRecord) : Str :=
  r.companyName ++ [','] ++ r.expectedISIN ++ [','] ++ jsShowOpt r.matchingURL

/-- `Array.prototype.join(sep)`. -/
def joinSep (sep : Str) : List Str → Str
  | [] => []
  | [x] => x
  | x :: y :: rest => x ++ sep ++ joinSep sep (y :: rest)

/-- The fixed header line of the matches CSV, newline included
(`src/gurufocus_isin_matcher.js:260`). -/
def csvHeader : Str := "Company Name,ISIN Code,GuruFocus URL\n".data

/-- `saveMatchesCSV` (`src/unnamed/part_000:444-461`; the same logic is
inlined in `saveResults`, `src/gurufocus_isin_matcher.js:253-263`): keep the
`matched` records, render each as a raw comma-joined row, join with newlines;
if the resulting body is truthy overwrite the whole file with header plus
body and return its content, otherwise write nothing. -/
def saveMatchesCSV (results : List MatchRecord) : Option Str :=
  let csvResults :=
    joinSep ['\n']
      ((results.filter (fun r => decide (r.status = Status.matched))).map matchRow)
  if csvResults = [] then none
  else some (csvHeader ++ csvResults)

/-! ## The batch loop -/

/-- The loop of `processCompanies` (`src/unnamed/part_000:409-439`): process
each record in order, append its `MatchRecord`, and after every 10th record
invoke `saveMatchesCSV`; the write trace collects the file contents actually
written, in order (each write overwrites the whole file).  `i` is the loop
index, `acc` the results so far, `ws` the writes so far. -/
def runBatchAux : List (InputRecord × RecordEnv) → Nat → List MatchRecord →
    List Str → List MatchRecord × List Str
  | [], _, acc, ws => (acc, ws)
  | p :: rest, i, acc, ws =>
    let r := processCompanyFull p.1 p.2
    let acc2 := acc ++ [r]
    let ws2 := if (i + 1) % 10 = 0 then ws ++ (saveMatchesCSV acc2).toList else ws
    runBatchAux rest (i + 1) acc2 ws2

/-- `processCompanies` over the records to process (the list after the
optional `slice(0, maxCompanies)` cap), returning the final result list and
the ordered trace of matches-CSV file writes. -/
def processCompanies (recs : List (InputRecord × RecordEnv)) :
    List MatchRecord × List Str :=
  runBatchAux recs 0 [] []

/-! ## The CLI decision logic -/

/-- A JS number that is either NaN or an integer (the values `parseInt`
produces on our inputs). -/
inductive JsNum
  | nan
  | int (n : Int)
deriving DecidableEq

/-- Value of a character as a digit in the given base, as `parseInt`
understands digits (`0-9`, `a-z`, `A-Z`). -/
def digitVal (base : Nat) (c : Char) : Option Nat :=
  let v :=
    if 48 ≤ c.toNat ∧ c.toNat ≤ 57 then some (c.toNat - 48)
    else if 65 ≤ c.toNat ∧ c.toNat ≤ 90 then some (c.toNat - 55)
    else if 97 ≤ c.toNat ∧ c.toNat ≤ 122 then some (c.toNat - 87)
    else none
  match v with
  | some d => if d < base then some d else none
  | none => none

/-- Accumulate a digit list into a natural number. -/
def natOfDigits (base : Nat) (ds : List Nat) : Nat :=
  ds.foldl (fun acc d => acc * base + d) 0

/-- JS `parseInt` with no radix argument: skip leading whitespace, read an
optional sign, honour a `0x`/`0X` hex marker, then read the maximal digit
run (ignoring any trailing junk); no digits at all gives NaN. -/
def parseIntJs (s : Str) : JsNum :=
  let t := s.dropWhile isJsSpace
  let signNeg : Bool := match t with | '-' :: _ => true | _ => false
  let t1 := match t with | '-' :: r => r | '+' :: r => r | _ => t
  let pair : Nat × Str :=
    match t1 with
    | '0' :: c :: r => if c = 'x' ∨ c = 'X' then (16, r) else (10, t1)
    | _ => (10, t1)
  let ds := pair.2.takeWhile (fun c => (digitVal pair.1 c).isSome)
  if ds = [] then JsNum.nan
  else
    let n : Int := Int.ofNat (natOfDigits pair.1 (ds.filterMap (digitVal pair.1)))
    JsNum.int (if signNeg then -n else n)

/-- What the CLI block decides to do: print the usage text and exit with the
given code, or construct the matcher and call `run` with the given
`maxCompanies` argument (`none` models passing `null`, "process all"). -/
inductive CliAction
  | usageExit (exitCode : Nat)
  | runWith (maxCompanies : Option JsNum)
deriving DecidableEq

/-- The CLI interface of `src/gurufocus_isin_matcher.js:341-368`:
`maxCompanies = process.argv[2] ? parseInt(process.argv[2]) : null`;
`if (!maxCompanies)` print usage and `process.exit(1)`; otherwise
`matcher.run(maxCompanies === 0 ? null : maxCompanies)`.
`argv2` is `none` when the positional argument is missing. -/
def cliMatcher (argv2 : Option Str) : CliAction :=
  let maxCompanies : Option JsNum :=
    match argv2 with
    | some s => if s = [] then none else some (parseIntJs s)
    | none => none
  let falsy : Bool :=
    match maxCompanies with
    | none => true
    | some JsNum.nan => true
    | some (JsNum.int n) => decide (n = 0)
  if falsy then CliAction.usageExit 1
  else CliAction.runWith
    (if maxCompanies = some (JsNum.int 0) then none else maxCompanies)

/-- The CLI interface of `src/unnamed/part_000:569-596`, translated from that
file's own text (it is character-for-character the same block). -/
def cliPart000 (argv2 : Option Str) : CliAction :=
  let maxCompanies : Option JsNum :=
    match argv2 with
    | some s => if s = [] then none else some (parseIntJs s)
    | none => none
  let falsy : Bool :=
    match maxCompanies with
    | none => true
    | some JsNum.nan => true
    | some (JsNum.int n) => decide (n = 0)
  if falsy then CliAction.usageExit 1
  else CliAction.runWith
    (if maxCompanies = some (JsNum.int 0) then none else maxCompanies)

/-! ## Rendering the matches CSV the way the spec describes it
(for comparison against the code's rendering) -/

/-- Modelled from the spec: "values containing the separator or quote
character are quoted per standard tabular-escaping rules" — the field is
wrapped in double quotes and embedded quotes are doubled. -/
def specEscapeField (s : Str) : Str :=
  if ',' ∈ s ∨ '"' ∈ s then
    '"' :: (s.map (fun c => if c = '"' then ['"', '"'] else [c])).flatten ++ ['"']
  else s

/-- Modelled from the spec: a data row of the tabular dump with each field
escaped per `specEscapeField`. -/
def specMatchRow (r : MatchRecord) : Str :=
  specEscapeField r.companyName ++ [','] ++ specEscapeField r.expectedISIN ++
    [','] ++ specEscapeField (jsShowOpt r.matchingURL)

/-- Splitting a string at every occurrence of a character (used to state
which lines the CSV content consists of). -/
def splitOnChar (c : Char) : Str → List Str
  | [] => [[]]
  | a :: rest =>
    if a = c then [] :: splitOnChar c rest
    else
      match splitOnChar c rest with
      | [] => [[a]]
      | s :: ss => (a :: s) :: ss

/-! ## Lemmas about the candidate loop -/

/-- `orO a b` is `a` unless `a` is `none` (the shape of "keep the last truthy
value, else an earlier one"). -/
def orO (a b : Option Str) : Option Str :=
  match a with
  | some x => some x
  | none => b

/-- The truthy extraction results over a candidate list, in order: the
non-null, non-empty values `extractISINFromPage` yields. -/
def truthyExts (ext : Str → Option Str) (links : List Candidate) : List Str :=
  (links.filterMap (fun l => ext l.url)).filter (fun f => !f.isEmpty)


/-- Unfolding `checkLinks` when extraction yields nothing for the head link. -/
theorem checkLinks_cons_none (e : Str) (ext : Str → Option Str) (l : Candidate)
    (ls : List Candidate) (found : Option Str) (hx : ext l.url = none) :
    checkLinks e ext (l :: ls) found =
      { checkLinks e ext ls found with
        visited := l.url :: (checkLinks e ext ls found).visited } := by
  simp [checkLinks, hx]

/-- Unfolding `checkLinks` when extraction yields the (falsy) empty string. -/
theorem checkLinks_cons_empty (e : Str) (ext : Str → Option Str) (l : Candidate)
    (ls : List Candidate) (found : Option Str) (hx : ext l.url = some []) :
    checkLinks e ext (l :: ls) found =
      { checkLinks e ext ls found with
        visited := l.url :: (checkLinks e ext ls found).visited } := by
  simp [checkLinks, hx]

/-- Unfolding `checkLinks` when extraction yields the expected code. -/
theorem checkLinks_cons_matched (e : Str) (ext : Str → Option Str) (l : Candidate)
    (ls : List Candidate) (found : Option Str) (hx : ext l.url = some e)
    (he : e ≠ []) :
    checkLinks e ext (l :: ls) found =
      ⟨some e, some l.url, Status.matched, [l.url]⟩ := by
  simp [checkLinks, hx, he]

/-- Unfolding `checkLinks` when extraction yields a truthy non-matching code. -/
theorem checkLinks_cons_other (e : Str) (ext : Str → Option Str) (l : Candidate)
    (ls : List Candidate) (found : Option Str) (g : Str) (hx : ext l.url = some g)
    (hg : g ≠ []) (hne : g ≠ e) :
    checkLinks e ext (l :: ls) found =
      { checkLinks e ext ls (some g) with
        visited := l.url :: (checkLinks e ext ls (some g)).visited } := by
  simp [checkLinks, hx, hg, hne]

/-- The candidate loop only ever finishes `matched` or `no_match`. -/
theorem checkLinks_status_cases (e : Str) (ext : Str → Option Str)
    (links : List Candidate) (found : Option Str) :
    (checkLinks e ext links found).status = Status.matched ∨
    (checkLinks e ext links found).status = Status.no_match := by
  induction links generalizing found with
  | nil => right; rfl
  | cons l ls ih =>
    cases hx : ext l.url with
    | none => rw [checkLinks_cons_none e ext l ls found hx]; exact ih found
    | some g =>
      rcases eq_or_ne g [] with rfl | hg
      · rw [checkLinks_cons_empty e ext l ls found hx]; exact ih found
      · rcases eq_or_ne g e with rfl | hne
        · rw [checkLinks_cons_matched g ext l ls found hx hg]; left; rfl
        · rw [checkLinks_cons_other e ext l ls found g hx hg hne]; exact ih (some g)

/-- The candidate loop records a matching URL exactly when it matched. -/
theorem checkLinks_url_iff (e : Str) (ext : Str → Option Str)
    (links : List Candidate) (found : Option Str) :
    ((checkLinks e ext links found).matchingURL ≠ none ↔
      (checkLinks e ext links found).status = Status.matched) := by
  induction links generalizing found with
  | nil => simp [checkLinks]
  | cons l ls ih =>
    cases hx : ext l.url with
    | none => rw [checkLinks_cons_none e ext l ls found hx]; exact ih found
    | some g =>
      rcases eq_or_ne g [] with rfl | hg
      · rw [checkLinks_cons_empty e ext l ls found hx]; exact ih found
      · rcases eq_or_ne g e with rfl | hne
        · rw [checkLinks_cons_matched g ext l ls found hx hg]; simp
        · rw [checkLinks_cons_other e ext l ls found g hx hg hne]; exact ih (some g)

/-- Provenance of `foundISIN`: any value the loop reports was either already
present when the loop started or was extracted from one of the links. -/
theorem checkLinks_found_src (e : Str) (ext : Str → Option Str) :
    ∀ (links : List Candidate) (found : Option Str) (f : Str),
    (checkLinks e ext links found).foundISIN = some f →
    found = some f ∨ ∃ l ∈ links, ext l.url = some f := by
  intro links
  induction links with
  | nil => intro found f h; left; exact h
  | cons l ls ih =>
    intro found f h
    cases hx : ext l.url with
    | none =>
      rw [checkLinks_cons_none e ext l ls found hx] at h
      rcases ih found f h with h1 | ⟨l1, hl1, hl2⟩
      · exact Or.inl h1
      · exact Or.inr ⟨l1, List.mem_cons_of_mem _ hl1, hl2⟩
    | some g =>
      rcases eq_or_ne g [] with rfl | hg
      · rw [checkLinks_cons_empty e ext l ls found hx] at h
        rcases ih found f h with h1 | ⟨l1, hl1, hl2⟩
        · exact Or.inl h1
        · exact Or.inr ⟨l1, List.mem_cons_of_mem _ hl1, hl2⟩
      · rcases eq_or_ne g e with rfl | hne
        · rw [checkLinks_cons_matched g ext l ls found hx hg] at h
          have hgf : g = f := by simpa using h
          exact Or.inr ⟨l, List.mem_cons_self _ _, by rw [hx, hgf]⟩
        · rw [checkLinks_cons_other e ext l ls found g hx hg hne] at h
          rcases ih (some g) f h with h1 | ⟨l1, hl1, hl2⟩
          · exact Or.inr ⟨l, List.mem_cons_self _ _, by rw [hx, ← Option.some_inj.mp h1]⟩
          · exact Or.inr ⟨l1, List.mem_cons_of_mem _ hl1, hl2⟩

/-- When the loop reports `matched`, the value stored in `foundISIN` is the
expected code itself (it is assigned from the extraction that passed the
equality test). -/
theorem checkLinks_matched_found (e : Str) (ext : Str → Option Str) :
    ∀ (links : List Candidate) (found : Option Str),
    (checkLinks e ext links found).status = Status.matched →
    (checkLinks e ext links found).foundISIN = some e := by
  intro links
  induction links with
  | nil => intro found h; exact absurd h (by simp [checkLinks])
  | cons l ls ih =>
    intro found h
    cases hx : ext l.url with
    | none =>
      rw [checkLinks_cons_none e ext l ls found hx] at h ⊢
      exact ih found h
    | some g =>
      rcases eq_or_ne g [] with rfl | hg
      · rw [checkLinks_cons_empty e ext l ls found hx] at h ⊢
        exact ih found h
      · rcases eq_or_ne g e with rfl | hne
        · rw [checkLinks_cons_matched g ext l ls found hx hg]
        · rw [checkLinks_cons_other e ext l ls found g hx hg hne] at h ⊢
          exact ih (some g) h

/-- Keeping the last element of a longer list: consing an element to a list
and falling back to an earlier value is the same as falling back to that
element. -/
theorem orO_getLast_cons (x : Str) (t : List Str) (a : Option Str) :
    orO ((x :: t).getLast?) a = orO t.getLast? (some x) := by
  cases t with
  | nil => rfl
  | cons y ys =>
    rw [List.getLast?_cons_cons]
    cases h : (y :: ys).getLast? with
    | none => simp at h
    | some z => rfl

/-- When no extraction over the candidate list equals the expected code, the
loop finishes `no_match` and `foundISIN` holds the last truthy extraction,
falling back to the value it held on entry. -/
theorem checkLinks_noMatch_found (e : Str) (ext : Str → Option Str) :
    ∀ (links : List Candidate) (found : Option Str),
    (∀ l ∈ links, ext l.url ≠ some e) →
    (checkLinks e ext links found).status = Status.no_match ∧
    (checkLinks e ext links found).foundISIN =
      orO (truthyExts ext links).getLast? found := by
  intro links
  induction links with
  | nil => intro found _; exact ⟨rfl, by simp [checkLinks, truthyExts, orO]⟩
  | cons l ls ih =>
    intro found hext
    have hls : ∀ x ∈ ls, ext x.url ≠ some e :=
      fun x hx => hext x (List.mem_cons_of_mem _ hx)
    cases hx : ext l.url with
    | none =>
      rw [checkLinks_cons_none e ext l ls found hx]
      have ht : truthyExts ext (l :: ls) = truthyExts ext ls := by
        simp [truthyExts, List.filterMap_cons, hx]
      rw [ht]
      exact ih found hls
    | some g =>
      rcases eq_or_ne g [] with rfl | hg
      · rw [checkLinks_cons_empty e ext l ls found hx]
        have ht : truthyExts ext (l :: ls) = truthyExts ext ls := by
          simp [truthyExts, List.filterMap_cons, hx]
        rw [ht]
        exact ih found hls
      · rcases eq_or_ne g e with rfl | hne
        · exact absurd hx (hext l (List.mem_cons_self _ _))
        · rw [checkLinks_cons_other e ext l ls found g hx hg hne]
          have ht : truthyExts ext (l :: ls) = g :: truthyExts ext ls := by
            simp [truthyExts, List.filterMap_cons, hx, List.filter_cons,
              List.isEmpty_iff, hg]
          rw [ht, orO_getLast_cons]
          exact ih (some g) hls

/-! ## Lemmas about the batch loop -/

/-- The record each input produces under its environment. -/
def resultsOf (recs : List (InputRecord × RecordEnv)) : List MatchRecord :=
  recs.map (fun p => processCompanyFull p.1 p.2)

theorem filterMap_cons_toList {α β : Type} (f : α → Option β) (a : α)
    (l : List α) :
    List.filterMap f (a :: l) = (f a).toList ++ List.filterMap f l := by
  cases h : f a <;> simp [List.filterMap_cons, h]

/-- The batch loop appends exactly one `MatchRecord` per record, in order. -/
theorem runBatchAux_fst : ∀ (recs : List (InputRecord × RecordEnv)) (i : Nat)
    (acc : List MatchRecord) (ws : List Str),
    (runBatchAux recs i acc ws).1 = acc ++ resultsOf recs := by
  intro recs
  induction recs with
  | nil => intro i acc ws; simp [runBatchAux, resultsOf]
  | cons p rest ih =>
    intro i acc ws
    simp only [runBatchAux]
    rw [ih]
    simp [resultsOf]

/-- Closed form of the write trace: the batch loop writes, in order, the
non-empty matches-CSV snapshots taken after each record whose 1-based
position is a multiple of 10. -/
theorem runBatchAux_snd : ∀ (recs : List (InputRecord × RecordEnv)) (i : Nat)
    (acc : List MatchRecord) (ws : List Str),
    (runBatchAux recs i acc ws).2 = ws ++
      (List.range recs.length).filterMap
        (fun j => if (i + j + 1) % 10 = 0 then
            saveMatchesCSV (acc ++ (resultsOf recs).take (j + 1))
          else none) := by
  intro recs
  induction recs with
  | nil => intro i acc ws; simp [runBatchAux]
  | cons p rest ih =>
    intro i acc ws
    have hres : resultsOf (p :: rest) =
        processCompanyFull p.1 p.2 :: resultsOf rest := rfl
    simp only [runBatchAux]
    rw [ih]
    rw [List.length_cons, List.range_succ_eq_map, filterMap_cons_toList,
      List.filterMap_map]
    have hcomp : ((fun j => if (i + j + 1) % 10 = 0 then
          saveMatchesCSV (acc ++ (resultsOf (p :: rest)).take (j + 1))
        else none) ∘ Nat.succ)
        = (fun j => if (i + 1 + j + 1) % 10 = 0 then
          saveMatchesCSV ((acc ++ [processCompanyFull p.1 p.2]) ++
            (resultsOf rest).take (j + 1))
        else none) := by
      funext j
      have harith : i + (j + 1) + 1 = i + 1 + j + 1 := by omega
      simp only [Function.comp_apply, Nat.succ_eq_add_one, harith, hres,
        List.take_succ_cons, List.append_assoc, List.singleton_append]
    rw [hcomp]
    have hhead : (if (i + 0 + 1) % 10 = 0 then
          saveMatchesCSV (acc ++ (resultsOf (p :: rest)).take (0 + 1))
        else none).toList
        = if (i + 1) % 10 = 0 then
            (saveMatchesCSV (acc ++ [processCompanyFull p.1 p.2])).toList
          else [] := by
      by_cases hmod : (i + 1) % 10 = 0 <;>
        simp [hmod, hres, List.take_succ_cons]
    rw [hhead]
    by_cases hmod : (i + 1) % 10 = 0 <;> simp [hmod, List.append_assoc]

/-! ## Lemmas about CSV rendering -/

/-- A data row always contains its two separators, so it is never empty. -/
theorem matchRow_ne_nil (r : MatchRecord) : matchRow r ≠ [] := by
  simp [matchRow]

/-- Joining rows that are each non-empty yields the empty string only for the
empty row list. -/
theorem joinSep_eq_nil (sep : Str) (xss : List Str)
    (h : ∀ x ∈ xss, x ≠ []) :
    (joinSep sep xss = [] ↔ xss = []) := by
  match xss with
  | [] => simp [joinSep]
  | [x] =>
    have hx := h x (by simp)
    simp [joinSep, hx]
  | x :: y :: rest =>
    have hx := h x (by simp)
    simp [joinSep, hx]

/-- Splitting after appending a separator-headed tail cuts exactly at the
separator, provided the front contains none. -/
theorem splitOnChar_append_cons (c : Char) (xs rest : Str) (h : c ∉ xs) :
    splitOnChar c (xs ++ c :: rest) = xs :: splitOnChar c rest := by
  induction xs with
  | nil => simp [splitOnChar]
  | cons a as ih =>
    have hac : ¬a = c := by
      intro hac
      exact h (hac ▸ List.mem_cons_self a as)
    have has : c ∉ as := fun hmem => h (List.mem_cons_of_mem a hmem)
    simp only [List.cons_append, splitOnChar, if_neg hac, List.append_eq,
      ih has]

/-- A separator-free string splits into itself alone. -/
theorem splitOnChar_of_not_mem (c : Char) (xs : Str) (h : c ∉ xs) :
    splitOnChar c xs = [xs] := by
  induction xs with
  | nil => rfl
  | cons a as ih =>
    have hac : ¬a = c := by
      intro hac
      exact h (hac ▸ List.mem_cons_self a as)
    have has : c ∉ as := fun hmem => h (List.mem_cons_of_mem a hmem)
    simp only [splitOnChar, if_neg hac, ih has]

/-- Splitting inverts joining when no row contains the separator. -/
theorem splitOnChar_joinSep (c : Char) (xss : List Str) (hne : xss ≠ [])
    (h : ∀ x ∈ xss, c ∉ x) :
    splitOnChar c (joinSep [c] xss) = xss := by
  induction xss with
  | nil => exact absurd rfl hne
  | cons x xs ih =>
    cases xs with
    | nil =>
      exact splitOnChar_of_not_mem c x (h x (by simp))
    | cons y rest =>
      have hx : c ∉ x := h x (by simp)
      have hrest : ∀ z ∈ y :: rest, c ∉ z :=
        fun z hz => h z (List.mem_cons_of_mem x hz)
      have : joinSep [c] (x :: y :: rest) = x ++ c :: joinSep [c] (y :: rest) := by
        simp [joinSep]
      rw [this, splitOnChar_append_cons c x _ hx,
        ih (List.cons_ne_nil y rest) hrest]

/-! ## Lemmas about the extraction tiers -/

/-- A successful code-pattern match captures exactly twelve characters. -/
theorem matchCodeAt_length (letter alnum : Char → Bool) (s : Str) (v : Str)
    (h : matchCodeAt letter alnum s = some v) : v.length = 12 := by
  simp only [matchCodeAt] at h
  split at h
  · cases h
    exact (by assumption : (s.take 12).length = 12 ∧ _ ∧ _).1
  · cases h

/-- A successful tier-1 attempt captures exactly twelve characters. -/
theorem tier1At_length (s v : Str) (h : tier1At s = some v) : v.length = 12 := by
  match s with
  | [] => cases h
  | [c1] => cases h
  | [c1, c2] => cases h
  | [c1, c2, c3] => cases h
  | c1 :: c2 :: c3 :: c4 :: rest =>
    simp only [tier1At] at h
    split at h
    · split at h
      · exact matchCodeAt_length _ _ _ _ h
      · cases h
    · cases h

/-- A successful tier-1 scan captures exactly twelve characters. -/
theorem tier1Scan_length (s v : Str) (h : tier1Scan s = some v) :
    v.length = 12 := by
  induction s with
  | nil => cases h
  | cons c rest ih =>
    simp only [tier1Scan] at h
    cases hx : tier1At (c :: rest) with
    | some w =>
      rw [hx] at h
      cases h
      exact tier1At_length _ _ hx
    | none =>
      rw [hx] at h
      exact ih h

/-- A successful bare scan captures exactly twelve characters. -/
theorem bareScan_length (s v : Str) (h : bareScan s = some v) :
    v.length = 12 := by
  induction s with
  | nil => cases h
  | cons c rest ih =>
    simp only [bareScan] at h
    cases hx : matchCodeAt isUpperAZ isAlnumCS (c :: rest) with
    | some w =>
      rw [hx] at h
      cases h
      exact matchCodeAt_length _ _ _ _ hx
    | none =>
      rw [hx] at h
      exact ih h

/-- A tier-1 success is never the (falsy) empty string, so the guarded
assignment chain keeps it. -/
theorem extract_of_tier1 (p : Page) (v : Str)
    (h : tier1Scan p.bodyText = some v) : extractISINFromPage p = some v := by
  have hlen := tier1Scan_length _ _ h
  have hfalse : strFalsy (some v) = false := by
    cases v with
    | nil => simp at hlen
    | cons a l => simp [strFalsy]
  simp [extractISINFromPage, h, hfalse]

/-- When tier 1 finds nothing, tier 2's result (if any) is returned. -/
theorem extract_of_tier2 (p : Page) (v : Str)
    (h1 : tier1Scan p.bodyText = none) (h2 : bareScan p.bodyText = some v) :
    extractISINFromPage p = some v := by
  have hlen := bareScan_length _ _ h2
  have hfalse : strFalsy (some v) = false := by
    cases v with
    | nil => simp at hlen
    | cons a l => simp [strFalsy]
  have hn : strFalsy (none : Option Str) = true := rfl
  simp [extractISINFromPage, h1, h2, hn, hfalse]

/-- When tiers 1 and 2 both find nothing, the extractor returns tier 3's
result. -/
theorem extract_of_tier3 (p : Page)
    (h1 : tier1Scan p.bodyText = none) (h2 : bareScan p.bodyText = none) :
    extractISINFromPage p = tier3Scan p.elementTexts := by
  simp [extractISINFromPage, h1, h2, strFalsy]

/-! ## Claim C1 -/

/-- Claim C1, amended.  For every well-formed identifier (two upper-case
letters followed by ten upper-case-alphanumeric characters), the tier-1 step
extracts it from page text of the forms `ISIN: <code>` and `isin:<code>`.
The label is matched case-insensitively; however, contrary to the original
claim, the `/i` flag of the tier-1 regex spans the whole pattern including
the code's character classes, so the code is matched case-insensitively as
well (see the counterexample `c1_lowercase_code_extracted`). -/
theorem c1_tier1_extracts_labeled (code : Str)
    (hlen : code.length = 12)
    (h2 : (code.take 2).all isUpperAZ = true)
    (h10 : (code.drop 2).all isAlnumCS = true) :
    tier1Scan ("ISIN: ".data ++ code) = some code ∧
    tier1Scan ("isin:".data ++ code) = some code := by
  obtain ⟨c0, cs, rfl⟩ : ∃ c0 cs, code = c0 :: cs := by
    cases code with
    | nil => simp at hlen
    | cons a l => exact ⟨a, l, rfl⟩
  have hup : isUpperAZ c0 = true :=
    List.all_eq_true.mp h2 c0 (by simp [List.take_succ_cons])
  have h65 : 65 ≤ c0.toNat ∧ c0.toNat ≤ 90 := by
    simpa [isUpperAZ] using hup
  have hnws : isJsSpace c0 = false := by
    simp only [isJsSpace, Bool.or_eq_false_iff, decide_eq_false_iff_not]
    omega
  have hCI2 : ((c0 :: cs).take 2).all isLetterCI = true := by
    rw [List.all_eq_true] at h2 ⊢
    intro x hx
    simp [isLetterCI, h2 x hx]
  have hCI10 : ((c0 :: cs).drop 2).all isAlnumCI = true := by
    rw [List.all_eq_true] at h10 ⊢
    intro x hx
    have hx2 := h10 x hx
    simp only [isAlnumCS, Bool.or_eq_true] at hx2
    simp only [isAlnumCI, isLetterCI, Bool.or_eq_true]
    tauto
  have hmc : matchCodeAt isLetterCI isAlnumCI (c0 :: cs) = some (c0 :: cs) := by
    have htake : (c0 :: cs).take 12 = c0 :: cs := by
      rw [← hlen]
      exact List.take_length _
    simp only [matchCodeAt, htake]
    rw [if_pos ⟨hlen, hCI2, hCI10⟩]
  have hdrop : List.dropWhile isJsSpace (c0 :: cs) = c0 :: cs := by
    rw [List.dropWhile_cons, if_neg (by simp [hnws])]
  constructor
  · show tier1Scan ('I' :: 'S' :: 'I' :: 'N' :: ':' :: ' ' :: c0 :: cs) =
      some (c0 :: cs)
    have h1 : tier1At ('I' :: 'S' :: 'I' :: 'N' :: ':' :: ' ' :: c0 :: cs) =
        some (c0 :: cs) := by
      simp only [tier1At]
      rw [if_pos ⟨rfl, rfl, rfl, rfl⟩]
      have hd1 : List.dropWhile isJsSpace (':' :: ' ' :: c0 :: cs) =
          ':' :: ' ' :: c0 :: cs := rfl
      rw [hd1]
      show matchCodeAt isLetterCI isAlnumCI
        (List.dropWhile isJsSpace (' ' :: c0 :: cs)) = some (c0 :: cs)
      have hd2 : List.dropWhile isJsSpace (' ' :: c0 :: cs) = c0 :: cs := by
        rw [List.dropWhile_cons, if_pos (show isJsSpace ' ' = true from rfl),
          hdrop]
      rw [hd2, hmc]
    simp only [tier1Scan]
    rw [h1]
  · show tier1Scan ('i' :: 's' :: 'i' :: 'n' :: ':' :: c0 :: cs) =
      some (c0 :: cs)
    have h1 : tier1At ('i' :: 's' :: 'i' :: 'n' :: ':' :: c0 :: cs) =
        some (c0 :: cs) := by
      simp only [tier1At]
      rw [if_pos ⟨rfl, rfl, rfl, rfl⟩]
      have hd1 : List.dropWhile isJsSpace (':' :: c0 :: cs) =
          ':' :: c0 :: cs := rfl
      rw [hd1]
      show matchCodeAt isLetterCI isAlnumCI
        (List.dropWhile isJsSpace (c0 :: cs)) = some (c0 :: cs)
      rw [hdrop, hmc]
    simp only [tier1Scan]
    rw [h1]

/-- Claim C1, witness: the theorem applied to the concrete well-formed
identifier `US0000011111`. -/
theorem c1_witness :
    tier1Scan ("ISIN: ".data ++ "US0000011111".data) =
      some ("US0000011111".data) ∧
    tier1Scan ("isin:".data ++ "US0000011111".data) =
      some ("US0000011111".data) :=
  c1_tier1_extracts_labeled ("US0000011111".data) (by decide) (by decide)
    (by decide)

/-- Claim C1, counterexample to the original claim: the claim states that a
lowercase code is not extracted by tier 1, but the `/i` flag makes the code
classes case-insensitive, so tier 1 extracts the all-lowercase code
`us0000011111` from `isin: us0000011111`. -/
theorem c1_lowercase_code_extracted :
    tier1Scan ("isin: us0000011111".data) = some ("us0000011111".data) := by
  decide

/-! ## Claim C2 -/

/-- Claim C2, amended.  An uncaught failure while processing a record is
recovered by `processCompany`'s catch handler as status `error` with the
failure's descriptive text retained on the record; however, contrary to the
original claim, a failure of the search step itself is caught inside
`searchCompany`, which returns an empty candidate list, so such a record is
classified `no_results`, not `error`. -/
theorem c2_record_failure_classification (c : InputRecord) (msg : Str)
    (ext : Str → Option Str) :
    (processCompanyFull c ⟨RecordOutcome.thrown msg, ext⟩).status =
      Status.error ∧
    (processCompanyFull c ⟨RecordOutcome.thrown msg, ext⟩).error = some msg ∧
    (processCompanyFull c
        ⟨RecordOutcome.normal (NavResult.navError msg), ext⟩).status =
      Status.no_results ∧
    (processCompanyFull c
        ⟨RecordOutcome.normal (NavResult.navError msg), ext⟩).error = none :=
  ⟨rfl, rfl, rfl, rfl⟩

/-- Claim C2, counterexample to the original claim: for a record whose search
navigation fails (timeout while loading the search page), the resulting
record has status `no_results` — not `error` as the claim requires — and no
failure text. -/
theorem c2_search_failure_not_error :
    (processCompanyFull ⟨"Acme Corp".data, "US0000011111".data⟩
        ⟨RecordOutcome.normal (NavResult.navError "timeout of 30000ms".data),
          fun _ => none⟩).status = Status.no_results ∧
    Status.no_results ≠ Status.error := by
  exact ⟨rfl, by decide⟩

/-! ## Claim C5 -/

/-- A candidate whose extraction does not equal the expected code never stops
the loop: the loop continues on the remaining candidates (with some updated
`foundISIN` state) and merely records the visited URL. -/
theorem checkLinks_skip (e : Str) (ext : Str → Option Str) (l : Candidate)
    (ls : List Candidate) (found : Option Str) (hl : ext l.url ≠ some e) :
    ∃ found2 : Option Str, checkLinks e ext (l :: ls) found =
      { checkLinks e ext ls found2 with
        visited := l.url :: (checkLinks e ext ls found2).visited } := by
  cases hx : ext l.url with
  | none => exact ⟨found, checkLinks_cons_none e ext l ls found hx⟩
  | some g =>
    rcases eq_or_ne g [] with rfl | hg
    · exact ⟨found, checkLinks_cons_empty e ext l ls found hx⟩
    · have hne : g ≠ e := fun hge => hl (hge ▸ hx)
      exact ⟨some g, checkLinks_cons_other e ext l ls found g hx hg hne⟩

/-- Claim C5.  When the third candidate's extraction equals the expected
identifier and the first two candidates' extractions do not, the record is
classified `matched` with the third candidate's URL, extraction was invoked
exactly three times, in candidate order, and a non-matching extraction never
aborted the iteration. -/
theorem c5_third_candidate_matches (company : InputRecord)
    (c1 c2 c3 : Candidate) (rest : List Candidate) (ext : Str → Option Str)
    (h1 : ext c1.url ≠ some company.isinCode)
    (h2 : ext c2.url ≠ some company.isinCode)
    (h3 : ext c3.url = some company.isinCode)
    (hcode : company.isinCode ≠ []) :
    (processCompany company (NavResult.ok (c1 :: c2 :: c3 :: rest))
        ext).status = Status.matched ∧
    (processCompany company (NavResult.ok (c1 :: c2 :: c3 :: rest))
        ext).matchingURL = some c3.url ∧
    (checkLinks company.isinCode ext (c1 :: c2 :: c3 :: rest) none).visited =
      [c1.url, c2.url, c3.url] := by
  obtain ⟨f1, hstep1⟩ :=
    checkLinks_skip company.isinCode ext c1 (c2 :: c3 :: rest) none h1
  obtain ⟨f2, hstep2⟩ :=
    checkLinks_skip company.isinCode ext c2 (c3 :: rest) f1 h2
  have hstep3 :=
    checkLinks_cons_matched company.isinCode ext c3 rest f2 h3 hcode
  have hloop : checkLinks company.isinCode ext (c1 :: c2 :: c3 :: rest) none =
      ⟨some company.isinCode, some c3.url, Status.matched,
        [c1.url, c2.url, c3.url]⟩ := by
    rw [hstep1, hstep2, hstep3]
  refine ⟨?_, ?_, ?_⟩
  · simp [processCompany, searchCompany, hloop]
  · simp [processCompany, searchCompany, hloop]
  · rw [hloop]

/-- Claim C5, witness: the theorem applied to three concrete candidates where
only the third page carries the expected code. -/
theorem c5_witness :
    (processCompany ⟨"Acme".data, "US0000011111".data⟩
        (NavResult.ok [⟨"u1".data, "A".data⟩, ⟨"u2".data, "B".data⟩,
          ⟨"u3".data, "C".data⟩])
        (fun u => if u = "u3".data then some ("US0000011111".data)
          else none)).status = Status.matched ∧
    (processCompany ⟨"Acme".data, "US0000011111".data⟩
        (NavResult.ok [⟨"u1".data, "A".data⟩, ⟨"u2".data, "B".data⟩,
          ⟨"u3".data, "C".data⟩])
        (fun u => if u = "u3".data then some ("US0000011111".data)
          else none)).matchingURL = some ("u3".data) ∧
    (checkLinks ("US0000011111".data)
        (fun u => if u = "u3".data then some ("US0000011111".data) else none)
        [⟨"u1".data, "A".data⟩, ⟨"u2".data, "B".data⟩, ⟨"u3".data, "C".data⟩]
        none).visited = ["u1".data, "u2".data, "u3".data] :=
  c5_third_candidate_matches ⟨"Acme".data, "US0000011111".data⟩
    ⟨"u1".data, "A".data⟩ ⟨"u2".data, "B".data⟩ ⟨"u3".data, "C".data⟩ []
    (fun u => if u = "u3".data then some ("US0000011111".data) else none)
    (by decide) (by decide) (by decide) (by decide)

/-! ## Claim C7 -/

/-- Falling back from a missing last value. -/
theorem orO_none_right (a : Option Str) : orO a none = a := by
  cases a <;> rfl

/-- Claim C7, amended.  For every non-empty candidate sequence in which no
extracted identifier equals the expected one, the record is classified
`no_match` and `foundISIN` is the last truthy extraction observed over the
iteration (absent when no candidate yielded a truthy extraction); the
original claim also covers the empty sequence, where the classification is
`no_results` instead (see `c7_empty_sequence_not_no_match`). -/
theorem c7_no_match_found_last (company : InputRecord)
    (links : List Candidate) (ext : Str → Option Str) (hne : links ≠ [])
    (h : ∀ l ∈ links, ext l.url ≠ some company.isinCode) :
    (processCompany company (NavResult.ok links) ext).status =
      Status.no_match ∧
    (processCompany company (NavResult.ok links) ext).foundISIN =
      ((links.filterMap (fun l => ext l.url)).filter
        (fun f => !f.isEmpty)).getLast? := by
  obtain ⟨hstatus, hfound⟩ :=
    checkLinks_noMatch_found company.isinCode ext links none h
  have hlen : ¬(searchCompany (NavResult.ok links)).length = 0 := by
    simpa [searchCompany, List.length_eq_zero] using hne
  constructor
  · simp only [processCompany]
    rw [if_neg hlen]
    exact hstatus
  · simp only [processCompany]
    rw [if_neg hlen]
    show (checkLinks company.isinCode ext links none).foundISIN = _
    rw [hfound, orO_none_right]
    rfl

/-- Claim C7, counterexample to the original claim: the empty candidate
sequence vacuously has no extraction equal to the expected identifier, yet
the record is classified `no_results`, not `no_match`. -/
theorem c7_empty_sequence_not_no_match :
    (processCompany ⟨"Acme".data, "US0000011111".data⟩ (NavResult.ok [])
        (fun _ => none)).status = Status.no_results ∧
    Status.no_results ≠ Status.no_match := by
  exact ⟨rfl, by decide⟩

/-- Claim C7, witness: two candidates, neither matching, the first yielding a
different code — the record is `no_match` and `foundISIN` keeps that code. -/
theorem c7_witness :
    (processCompany ⟨"Acme".data, "US0000011111".data⟩
        (NavResult.ok [⟨"u1".data, "A".data⟩, ⟨"u2".data, "B".data⟩])
        (fun u => if u = "u1".data then some ("GB0000022222".data)
          else none)).status = Status.no_match ∧
    (processCompany ⟨"Acme".data, "US0000011111".data⟩
        (NavResult.ok [⟨"u1".data, "A".data⟩, ⟨"u2".data, "B".data⟩])
        (fun u => if u = "u1".data then some ("GB0000022222".data)
          else none)).foundISIN = some ("GB0000022222".data) := by
  have h := c7_no_match_found_last ⟨"Acme".data, "US0000011111".data⟩
    [⟨"u1".data, "A".data⟩, ⟨"u2".data, "B".data⟩]
    (fun u => if u = "u1".data then some ("GB0000022222".data) else none)
    (by decide) (by decide)
  refine ⟨h.1, ?_⟩
  rw [h.2]
  decide

/-! ## Claim C8 -/

/-- Claim C8.  The batch loop appends exactly one `MatchRecord` per processed
`InputRecord`, in input order; every finalized record's status is one of the
four terminal values (never the `not_found` placeholder); `foundISIN` is set
only when extraction succeeded at least once for that record (and the stored
value is one of its extractions); and `matchingURL` is set if and only if the
status is `matched`. -/
theorem c8_result_set_invariants (recs : List (InputRecord × RecordEnv)) :
    (processCompanies recs).1 =
      recs.map (fun p => processCompanyFull p.1 p.2) ∧
    (∀ (c : InputRecord) (env : RecordEnv),
      ((processCompanyFull c env).status = Status.matched ∨
        (processCompanyFull c env).status = Status.no_match ∨
        (processCompanyFull c env).status = Status.no_results ∨
        (processCompanyFull c env).status = Status.error) ∧
      (processCompanyFull c env).status ≠ Status.not_found ∧
      ((processCompanyFull c env).matchingURL ≠ none ↔
        (processCompanyFull c env).status = Status.matched) ∧
      (∀ f, (processCompanyFull c env).foundISIN = some f →
        ∃ l ∈ envLinks env, env.extract l.url = some f)) := by
  constructor
  · rw [processCompanies, runBatchAux_fst]
    rfl
  · intro c env
    obtain ⟨outc, ext⟩ := env
    cases outc with
    | thrown msg =>
      refine ⟨Or.inr (Or.inr (Or.inr rfl)), fun h => Status.noConfusion h,
        by simp [processCompanyFull], ?_⟩
      intro f hf
      exact absurd hf (by simp [processCompanyFull])
    | normal nav =>
      by_cases hl : (searchCompany nav).length = 0
      · have hpc : processCompanyFull c ⟨RecordOutcome.normal nav, ext⟩ =
            { companyName := c.companyName, expectedISIN := c.isinCode,
              foundISIN := none, matchingURL := none,
              status := Status.no_results } := by
          simp only [processCompanyFull, processCompany]
          rw [if_pos hl]
        rw [hpc]
        refine ⟨Or.inr (Or.inr (Or.inl rfl)), fun h => Status.noConfusion h,
          by simp, ?_⟩
        intro f hf
        cases hf
      · have hpc : processCompanyFull c ⟨RecordOutcome.normal nav, ext⟩ =
            { companyName := c.companyName, expectedISIN := c.isinCode,
              foundISIN :=
                (checkLinks c.isinCode ext (searchCompany nav) none).foundISIN,
              matchingURL :=
                (checkLinks c.isinCode ext (searchCompany nav) none).matchingURL,
              status :=
                (checkLinks c.isinCode ext (searchCompany nav) none).status } := by
          simp only [processCompanyFull, processCompany]
          rw [if_neg hl]
        rw [hpc]
        refine ⟨?_, ?_, ?_, ?_⟩
        · rcases checkLinks_status_cases c.isinCode ext (searchCompany nav)
              none with h | h
          · exact Or.inl h
          · exact Or.inr (Or.inl h)
        · rcases checkLinks_status_cases c.isinCode ext (searchCompany nav)
              none with h | h <;> simp [h]
        · exact checkLinks_url_iff c.isinCode ext (searchCompany nav) none
        · intro f hf
          rcases checkLinks_found_src c.isinCode ext (searchCompany nav) none
              f hf with h0 | ⟨l, hmem, hext⟩
          · cases h0
          · exact ⟨l, by simpa [envLinks] using hmem, hext⟩

/-- Claim C8, witness: the theorem instantiated on a concrete two-record
batch (one matched, one with a failed search), projecting the
one-record-per-input equality and a concrete `matchingURL` biconditional. -/
theorem c8_witness :
    ((processCompanies
        [(⟨"Acme".data, "US0000011111".data⟩,
          ⟨RecordOutcome.normal (NavResult.ok [⟨"u1".data, "A".data⟩]),
            fun _ => some ("US0000011111".data)⟩),
         (⟨"Beta".data, "GB0000022222".data⟩,
          ⟨RecordOutcome.normal (NavResult.navError "timeout".data),
            fun _ => none⟩)]).1 =
      [(⟨"Acme".data, "US0000011111".data⟩,
        (⟨RecordOutcome.normal (NavResult.ok [⟨"u1".data, "A".data⟩]),
          fun _ => some ("US0000011111".data)⟩ : RecordEnv)),
       (⟨"Beta".data, "GB0000022222".data⟩,
        (⟨RecordOutcome.normal (NavResult.navError "timeout".data),
          fun _ => none⟩ : RecordEnv))].map
        (fun p => processCompanyFull p.1 p.2)) ∧
    ((processCompanyFull ⟨"Acme".data, "US0000011111".data⟩
        ⟨RecordOutcome.normal (NavResult.ok [⟨"u1".data, "A".data⟩]),
          fun _ => some ("US0000011111".data)⟩).matchingURL ≠ none ↔
      (processCompanyFull ⟨"Acme".data, "US0000011111".data⟩
        ⟨RecordOutcome.normal (NavResult.ok [⟨"u1".data, "A".data⟩]),
          fun _ => some ("US0000011111".data)⟩).status = Status.matched) :=
  ⟨(c8_result_set_invariants
      [(⟨"Acme".data, "US0000011111".data⟩,
        ⟨RecordOutcome.normal (NavResult.ok [⟨"u1".data, "A".data⟩]),
          fun _ => some ("US0000011111".data)⟩),
       (⟨"Beta".data, "GB0000022222".data⟩,
        ⟨RecordOutcome.normal (NavResult.navError "timeout".data),
          fun _ => none⟩)]).1,
   (((c8_result_set_invariants []).2 ⟨"Acme".data, "US0000011111".data⟩
      ⟨RecordOutcome.normal (NavResult.ok [⟨"u1".data, "A".data⟩]),
        fun _ => some ("US0000011111".data)⟩).2.2).1⟩

/-! ## Claim C10 -/

/-- Claim C10.  Every record in the final result set whose status is
`matched` carries `foundISIN` equal to its `expectedISIN`: the matching
candidate's extraction is stored into `foundISIN` before the equality test
that sets the `matched` status, so a matched record can never keep a
different value left over from an earlier candidate. -/
theorem c10_matched_implies_found_expected
    (recs : List (InputRecord × RecordEnv)) (r : MatchRecord)
    (hr : r ∈ (processCompanies recs).1)
    (hst : r.status = Status.matched) :
    r.foundISIN = some r.expectedISIN := by
  rw [processCompanies, runBatchAux_fst, List.nil_append, resultsOf] at hr
  obtain ⟨⟨c, env⟩, hp, rfl⟩ := List.mem_map.mp hr
  obtain ⟨outc, ext⟩ := env
  cases outc with
  | thrown msg => exact absurd hst (by simp [processCompanyFull])
  | normal nav =>
    by_cases hl : (searchCompany nav).length = 0
    · have : (processCompanyFull c ⟨RecordOutcome.normal nav, ext⟩).status =
          Status.no_results := by
        simp only [processCompanyFull, processCompany]
        rw [if_pos hl]
      rw [this] at hst
      cases hst
    · have hpc : processCompanyFull c ⟨RecordOutcome.normal nav, ext⟩ =
          { companyName := c.companyName, expectedISIN := c.isinCode,
            foundISIN :=
              (checkLinks c.isinCode ext (searchCompany nav) none).foundISIN,
            matchingURL :=
              (checkLinks c.isinCode ext (searchCompany nav) none).matchingURL,
            status :=
              (checkLinks c.isinCode ext (searchCompany nav) none).status } := by
        simp only [processCompanyFull, processCompany]
        rw [if_neg hl]
      rw [hpc] at hst ⊢
      exact checkLinks_matched_found c.isinCode ext (searchCompany nav) none
        hst

/-- Claim C10, witness: a one-record batch whose single candidate page holds
the expected code; its matched record carries that code in `foundISIN`. -/
theorem c10_witness :
    (processCompanyFull ⟨"Acme".data, "US0000011111".data⟩
        ⟨RecordOutcome.normal (NavResult.ok [⟨"u1".data, "A".data⟩]),
          fun _ => some ("US0000011111".data)⟩).foundISIN =
      some (processCompanyFull ⟨"Acme".data, "US0000011111".data⟩
        ⟨RecordOutcome.normal (NavResult.ok [⟨"u1".data, "A".data⟩]),
          fun _ => some ("US0000011111".data)⟩).expectedISIN :=
  c10_matched_implies_found_expected
    [(⟨"Acme".data, "US0000011111".data⟩,
      ⟨RecordOutcome.normal (NavResult.ok [⟨"u1".data, "A".data⟩]),
        fun _ => some ("US0000011111".data)⟩)]
    _ (by decide) (by decide)

/-! ## Claim C3 -/

/-- Claim C3, amended.  The matches dump consists of the header row
`Company Name,ISIN Code,GuruFocus URL` followed by exactly one row per
`matched` record (and no rows for any other status), in result order; but
contrary to the original claim the rows receive NO escaping whatsoever —
every field is written verbatim even when it contains the separator or the
quote character — and the file is only written at all when at least one
record is matched. -/
theorem c3_matches_csv_rows (results : List MatchRecord)
    (hnl : ∀ r ∈ results, ('\n' : Char) ∉ matchRow r) :
    (saveMatchesCSV results = none ↔
      results.filter (fun r => decide (r.status = Status.matched)) = []) ∧
    (∀ out, saveMatchesCSV results = some out →
      splitOnChar '\n' out =
        "Company Name,ISIN Code,GuruFocus URL".data ::
          (results.filter
            (fun r => decide (r.status = Status.matched))).map matchRow) := by
  set rows := (results.filter
    (fun r => decide (r.status = Status.matched))).map matchRow with hrows
  have hrow_ne : ∀ x ∈ rows, x ≠ [] := by
    intro x hx
    rw [hrows] at hx
    obtain ⟨r, _, rfl⟩ := List.mem_map.mp hx
    exact matchRow_ne_nil r
  have hjoin := joinSep_eq_nil ['\n'] rows hrow_ne
  constructor
  · by_cases hc : joinSep ['\n'] rows = []
    · have hempty : rows = [] := hjoin.mp hc
      have : saveMatchesCSV results = none := by
        simp only [saveMatchesCSV, ← hrows]
        rw [if_pos hc]
      rw [this]
      simp only [true_iff, iff_true_intro rfl]
      simpa using List.map_eq_nil_iff.mp hempty
    · have : saveMatchesCSV results = some (csvHeader ++ joinSep ['\n'] rows) := by
        simp only [saveMatchesCSV, ← hrows]
        rw [if_neg hc]
      rw [this]
      constructor
      · intro h; cases h
      · intro h
        exact absurd (hjoin.mpr (by rw [hrows, h]; rfl)) hc
  · intro out hout
    by_cases hc : joinSep ['\n'] rows = []
    · have : saveMatchesCSV results = none := by
        simp only [saveMatchesCSV, ← hrows]
        rw [if_pos hc]
      rw [this] at hout
      cases hout
    · have hsave : saveMatchesCSV results =
          some (csvHeader ++ joinSep ['\n'] rows) := by
        simp only [saveMatchesCSV, ← hrows]
        rw [if_neg hc]
      rw [hsave] at hout
      obtain rfl : csvHeader ++ joinSep ['\n'] rows = out :=
        Option.some_inj.mp hout
      have hhd : csvHeader =
          "Company Name,ISIN Code,GuruFocus URL".data ++ ['\n'] := by decide
      have hnot : ('\n' : Char) ∉ "Company Name,ISIN Code,GuruFocus URL".data := by
        decide
      rw [hhd, List.append_assoc, List.singleton_append,
        splitOnChar_append_cons '\n' _ _ hnot]
      have hrows_ne : rows ≠ [] := by
        intro h
        exact hc (by rw [h]; rfl)
      have hrow_nl : ∀ x ∈ rows, ('\n' : Char) ∉ x := by
        intro x hx
        rw [hrows] at hx
        obtain ⟨r, hr, rfl⟩ := List.mem_map.mp hx
        exact hnl r (List.mem_filter.mp hr).1
      rw [splitOnChar_joinSep '\n' rows hrows_ne hrow_nl]

/-- Claim C3, counterexample to the original claim: a matched record whose
company name contains the separator is rendered verbatim — the field is not
quoted as the claim's escaping rule requires (compare with the
spec-modelled `specMatchRow`). -/
theorem c3_comma_not_escaped :
    saveMatchesCSV
        [⟨"Acme, Inc".data, "US0000011111".data, some ("US0000011111".data), some ("https://g/x".data), Status.matched, none⟩] =
      some (("Company Name,ISIN Code,GuruFocus URL\nAcme, Inc,US0000011111,https://g/x").data) ∧
    specMatchRow
        ⟨"Acme, Inc".data, "US0000011111".data, some ("US0000011111".data), some ("https://g/x".data), Status.matched, none⟩ ≠
      matchRow
        ⟨"Acme, Inc".data, "US0000011111".data, some ("US0000011111".data), some ("https://g/x".data), Status.matched, none⟩ := by
  exact ⟨by decide, by decide⟩

/-- Claim C3, witness: on a batch with one matched and one unmatched record
the dump splits into the header line plus exactly the matched record's raw
row. -/
theorem c3_witness :
    splitOnChar '\n'
        ("Company Name,ISIN Code,GuruFocus URL\nAcme Co,US0000011111,https://g/x").data =
      "Company Name,ISIN Code,GuruFocus URL".data ::
        (([⟨"Acme Co".data, "US0000011111".data, some ("US0000011111".data), some ("https://g/x".data), Status.matched, none⟩,
           ⟨"Beta Inc".data, "GB0000022222".data, none, none, Status.no_results, none⟩] : List MatchRecord).filter
          (fun r => decide (r.status = Status.matched))).map matchRow :=
  (c3_matches_csv_rows
    [⟨"Acme Co".data, "US0000011111".data, some ("US0000011111".data), some ("https://g/x".data), Status.matched, none⟩,
     ⟨"Beta Inc".data, "GB0000022222".data, none, none, Status.no_results, none⟩] (by decide)).2 _ (by decide)

/-! ## Claim C4 -/

/-- Claim C4, amended.  In the batch loop, immediately after every record
whose 1-based position is a multiple of 10, `saveMatchesCSV` is invoked on
the results so far; a whole-file overwrite of the matches file occurs
exactly when that snapshot contains at least one matched record
(`saveMatchesCSV` returns `none` — and writes nothing — when the matched-row
body is empty), so contrary to the original claim nothing is persisted at a
10-record boundary while no record has matched yet.  The write trace equals,
in order, the non-`none` matches-CSV snapshots of the result prefixes of
length 10, 20, 30, …. -/
theorem c4_periodic_persistence (recs : List (InputRecord × RecordEnv)) :
    (processCompanies recs).2 =
      (List.range recs.length).filterMap
        (fun j => if (j + 1) % 10 = 0 then
            saveMatchesCSV ((processCompanies recs).1.take (j + 1))
          else none) := by
  have h1 := runBatchAux_fst recs 0 [] []
  have h2 := runBatchAux_snd recs 0 [] []
  simp only [processCompanies]
  rw [h2]
  simp only [List.nil_append, Nat.zero_add, h1]

/-- Claim C4, counterexample to the original claim: a run of ten records all
classified `no_results` completes its tenth record, yet the write trace is
empty — no matches file is written at the 10-record boundary, because
`saveMatchesCSV` skips the write when there is no matched record. -/
theorem c4_no_write_without_matches :
    (processCompanies (List.replicate 10
        ((⟨"Acme".data, "US0000011111".data⟩ : InputRecord),
          (⟨RecordOutcome.normal (NavResult.ok []), fun _ => none⟩ :
            RecordEnv)))).1.length = 10 ∧
    (processCompanies (List.replicate 10
        ((⟨"Acme".data, "US0000011111".data⟩ : InputRecord),
          (⟨RecordOutcome.normal (NavResult.ok []), fun _ => none⟩ :
            RecordEnv)))).2 = [] := by
  exact ⟨by decide, by decide⟩

/-! ## Claim C6 -/

/-- Claim C6.  A later tier of the fallback chain is consulted only when
every earlier tier returned nothing, and never overrides an earlier tier's
success: whenever tier 1 finds a labelled value the extractor returns it
(so a different bare 12-character token elsewhere on the page is ignored);
tier 2's value is returned exactly when tier 1 found nothing; tier 3 is
consulted exactly when both earlier tiers found nothing. -/
theorem c6_tier_precedence (p : Page) :
    (∀ v, tier1Scan p.bodyText = some v → extractISINFromPage p = some v) ∧
    (∀ v, tier1Scan p.bodyText = none → bareScan p.bodyText = some v →
      extractISINFromPage p = some v) ∧
    (tier1Scan p.bodyText = none → bareScan p.bodyText = none →
      extractISINFromPage p = tier3Scan p.elementTexts) :=
  ⟨fun v h => extract_of_tier1 p v h,
   fun v h1 h2 => extract_of_tier2 p v h1 h2,
   fun h1 h2 => extract_of_tier3 p h1 h2⟩

/-- Claim C6, witness: a page whose body holds a bare token
(`GB0000022222`, which tier 2 would return) before a labelled ISIN — the
extractor returns the labelled value, not the bare token. -/
theorem c6_witness :
    extractISINFromPage
        ⟨"GB0000022222 see ISIN: US0000011111".data,
          ["GB0000022222".data]⟩ = some ("US0000011111".data) :=
  (c6_tier_precedence
    ⟨"GB0000022222 see ISIN: US0000011111".data,
      ["GB0000022222".data]⟩).1 ("US0000011111".data) (by decide)

/-! ## Claim C9 -/

/-- Claim C9, amended.  When the positional record-count argument is missing
the program prints the usage text and exits with code 1; however the two
script variants do not differ: their CLI blocks are textually identical, and
BOTH treat every falsy record-count value (missing argument, `0`, or a
non-numeric argument parsing to NaN) as show-usage-and-exit, so the
`maxCompanies === 0 ? null : maxCompanies` "0 means process all" conversion
(and the usage text advertising `0  # Process all companies`) is unreachable
in both. -/
theorem c9_cli_behaviour :
    (∀ a, cliMatcher a = cliPart000 a) ∧
    cliMatcher none = CliAction.usageExit 1 ∧
    cliPart000 none = CliAction.usageExit 1 ∧
    (∀ s, parseIntJs s = JsNum.int 0 →
      cliMatcher (some s) = CliAction.usageExit 1) ∧
    (∀ s, parseIntJs s = JsNum.nan →
      cliMatcher (some s) = CliAction.usageExit 1) := by
  refine ⟨fun a => rfl, rfl, rfl, ?_, ?_⟩
  · intro s h
    rcases eq_or_ne s [] with rfl | hs
    · rfl
    · simp [cliMatcher, hs, h]
  · intro s h
    rcases eq_or_ne s [] with rfl | hs
    · rfl
    · simp [cliMatcher, hs, h]

/-- Claim C9, counterexample to the original claim: on the argument `0` the
two variants behave identically — both print the usage text and exit with
code 1; neither treats `0` as "process all input records". -/
theorem c9_zero_same_in_both_variants :
    cliMatcher (some ("0".data)) = CliAction.usageExit 1 ∧
    cliPart000 (some ("0".data)) = CliAction.usageExit 1 ∧
    CliAction.usageExit 1 ≠ CliAction.runWith none := by
  exact ⟨by decide, by decide, by decide⟩

/-- Claim C9, witness: the theorem applied to the concrete argument `0`
(which parses to the falsy number 0) and to the missing argument. -/
theorem c9_witness :
    cliMatcher (some ['0']) = CliAction.usageExit 1 ∧
    cliMatcher none = CliAction.usageExit 1 :=
  ⟨c9_cli_behaviour.2.2.2.1 ['0'] (by decide), c9_cli_behaviour.2.1⟩
